import Mathlib

/-!
Verification development for `src/main/python/c19/text_preprocessing.py`
(covid-19-kaggle).

The Python module is shallowly embedded: pure functions become Lean
functions, raised exceptions become `Except PyExc`, and the external
collaborators (nltk's punkt sentence splitter, the English stop-word
corpus, the Snowball stemmer, `random.shuffle`, the embedding model and
the sqlite database accessed through `c19.database_utilities`) become
explicit parameters or effect lists, since they are external capabilities
of the program, not code of this module.
-/

set_option autoImplicit false

/-- Python runtime values appearing in output rows: strings and `None`. -/
inductive PyVal
  | str (s : String)
  | null
deriving DecidableEq, Repr

/-- Python exceptions relevant to this module. -/
inductive PyExc
  | sqlite3OperationalError
  | typeError
  | indexError
  | assertionError
  | otherError (msg : String)
deriving DecidableEq, Repr

/-- An output row is a Python list of values (the source builds rows as
5-element Python lists). -/
abbrev Row := List PyVal

/-- External linguistic capabilities used by `preprocess_text`:
`nltk.tokenize.sent_tokenize`, the nltk English stop-word corpus and the
Snowball stemmer's `stem` method.  They are third-party collaborators of
the module, so the embedding is parametric in them. -/
structure NormEnv where
  sent_tokenize : String → List String
  stop_words : List String
  stem : String → String

/-- The optional embedding model: `map(str, model.compute_sentence_vector(s))`
returns the stringified vector components, or raises (modelled as
`Except.error`).  Failure for any reason (e.g. all words out of
vocabulary) is an error value. -/
abbrev Vectorizer := List String → Except PyExc (List String)

/-- Python `str.lower()` (character-wise, as used on the ASCII inputs of
this module). -/
def pyLower (s : String) : String := String.mk (s.data.map Char.toLower)

/-- A character matched by the regex class `\w` (word character) for the
ASCII inputs of this module. -/
def isWordChar (c : Char) : Bool := c.isAlphanum || c = '_'

/-- Accumulator loop for `RegexpTokenizer(r"\w+").tokenize`: collect the
maximal runs of word characters. `cur` holds the current run reversed. -/
def tokenizeGo : List Char → List Char → List String
  | [], cur => if cur.isEmpty then [] else [String.mk cur.reverse]
  | c :: cs, cur =>
    if isWordChar c then tokenizeGo cs (c :: cur)
    else if cur.isEmpty then tokenizeGo cs []
    else String.mk cur.reverse :: tokenizeGo cs []

/-- `RegexpTokenizer(r"\w+").tokenize(sentence)`: the maximal runs of
word characters of the sentence. -/
def wordTokenize (s : String) : List String := tokenizeGo s.data []

/-- Inner helper `filter_stopwords` of `preprocess_text`:
`[word for word in sentence if word not in stop_words]`. -/
def filter_stopwords (stop_words : List String) (sentence : List String) : List String :=
  sentence.filter (fun word => word ∉ stop_words)

/-- Inner helper `do_stemming` of `preprocess_text`:
`[stem_function.stem(word) for word in sentence]`. -/
def do_stemming (stem_function : String → String) (sentence : List String) : List String :=
  sentence.map stem_function

/-- Truthiness of `re.compile(r"[a-z]").match(word)`: the first character
of the word is a lower-case letter (`re.match` anchors at the start). -/
def startsWithLowerAlpha (word : String) : Bool :=
  match word.data with
  | [] => false
  | c :: _ => decide ('a' ≤ c) && decide (c ≤ 'z')

/-- Inner helper `remove_numeric_words` of `preprocess_text`:
`[word for word in sentence if letter_pattern.match(word)]`. -/
def remove_numeric_words (sentence : List String) : List String :=
  sentence.filter startsWithLowerAlpha

/-- `preprocess_text(text, stem_words, remove_num)` from the source:
sentence-split, lower, tokenize, remove stop words, optionally stem,
optionally drop words not starting with a letter, then
`[[word for word in sentence if len(word) > 1] for sentence in sentences if sentence != []]`.
Returns `(sentences, sentences_raw)`.  Note that the final comprehension
filters empty sentences out of the normalized list only: `sentences_raw`
is returned exactly as produced by the sentence splitter. -/
def preprocess_text (env : NormEnv) (text : String)
    (stem_words : Bool) (remove_num : Bool) :
    List (List String) × List String :=
  let sentences_raw := env.sent_tokenize text
  let sentences := sentences_raw.map pyLower
  let sentences := sentences.map wordTokenize
  let sentences := sentences.map (filter_stopwords env.stop_words)
  let sentences := if stem_words then sentences.map (do_stemming env.stem) else sentences
  let sentences := if remove_num then sentences.map remove_numeric_words else sentences
  let sentences := (sentences.filter (fun s => s ≠ [])).map
    (fun s => s.filter (fun word => word.length > 1))
  (sentences, sentences_raw)

/-- The state of `sentences` in `preprocess_text` just before the final
comprehension: sentence-split, lowered, tokenized, stop-words removed,
optionally stemmed, optionally numeric-filtered — but before the
empty-sentence filter and the length-`≤ 1` token filter.  Definitionally
a prefix of `preprocess_text` (the equation between the two below is
`rfl`). -/
def normalizedBeforeLengthFilter (env : NormEnv) (text : String)
    (stem_words : Bool) (remove_num : Bool) : List (List String) :=
  let sentences_raw := env.sent_tokenize text
  let sentences := sentences_raw.map pyLower
  let sentences := sentences.map wordTokenize
  let sentences := sentences.map (filter_stopwords env.stop_words)
  let sentences := if stem_words then sentences.map (do_stemming env.stem) else sentences
  if remove_num then sentences.map remove_numeric_words else sentences

/-- JSON string escaping for one character, as performed by `json.dumps`
on the plain strings of this module. -/
def jsonEscapeChar (c : Char) : List Char :=
  if c = '\"' then ['\\', '\"']
  else if c = '\\' then ['\\', '\\']
  else [c]

/-- `json.dumps` of a Python list (or tuple) of strings, with the default
separator: a JSON array of quoted strings. -/
def pyJsonDumps (l : List String) : String :=
  String.mk ('[' ::
    ((String.intercalate (", ")
      (l.map (fun s => String.mk ('\"' :: ((s.data.map jsonEscapeChar).flatten ++ ['\"']))))).data
      ++ [']']))

/-- The body-section sub-sampling of `pre_process_batch_of_articles`:
`temp_list = list(zip(pp, raw)); shuffle(temp_list); temp_list[0:20]`.
`random.shuffle` is modelled as an externally supplied permutation
`shuffleFn` (it has no fixed seed, so any permutation is a possible
outcome). -/
def sampleBodySentences
    (shuffleFn : List (List String × String) → List (List String × String))
    (pairs : List (List String × String)) : List (List String × String) :=
  (shuffleFn pairs).take 20

/-- One source article record `(id, title, abstract, body)` as returned by
`get_all_articles_data`; the three text fields may be `None`. -/
structure Article where
  id : String
  title : Option String
  abstract : Option String
  body : Option String
deriving DecidableEq, Repr

/-- The 5-element row built by the worker:
`[article_id, section, raw_sentence, json.dumps(pp_sentence), vector]`. -/
def mkRow (article_id : String) (section_name : String) (raw_sentence : String)
    (pp_sentence : List String) (vector : PyVal) : Row :=
  [PyVal.str article_id, PyVal.str section_name, PyVal.str raw_sentence,
   PyVal.str (pyJsonDumps pp_sentence), vector]

/-- The per-sentence loop of `pre_process_batch_of_articles`:
`for pp_sentence, raw_sentence in zip(pp_sentences, sentences_raw)`.
For each pair with `pp_sentence != []`, if an embedding model is present
its vector is computed *before* the `try` block, so a failure there
propagates out of the worker (the `try/except TypeError` in the source
only wraps the construction and append of the row, which cannot raise
for these values). -/
def processPairs (embedding_model : Option Vectorizer)
    (article_id : String) (section_name : String) :
    List (List String × String) → Except PyExc (List Row)
  | [] => .ok []
  | (pp_sentence, raw_sentence) :: rest =>
    if pp_sentence ≠ [] then
      match embedding_model with
      | some f =>
        match f pp_sentence with
        | .error e => .error e
        | .ok comps =>
          (processPairs embedding_model article_id section_name rest).map
            (fun rows =>
              mkRow article_id section_name raw_sentence pp_sentence
                (PyVal.str (pyJsonDumps comps)) :: rows)
      | none =>
        (processPairs embedding_model article_id section_name rest).map
          (fun rows =>
            mkRow article_id section_name raw_sentence pp_sentence PyVal.null :: rows)
    else processPairs embedding_model article_id section_name rest

/-- One iteration of the section loop
`for section, data in zip(["title", "abstract", "body"], ...)`:
skip a `None` section, preprocess, and for `"body"` sub-sample the
(zipped) sentence pairs before the per-sentence loop. -/
def processSection (env : NormEnv)
    (shuffleFn : List (List String × String) → List (List String × String))
    (embedding_model : Option Vectorizer) (stem_words remove_num : Bool)
    (article_id : String) (section_name : String) (data : Option String) :
    Except PyExc (List Row) :=
  match data with
  | none => .ok []
  | some text =>
    let pp := preprocess_text env text stem_words remove_num
    let pp_sentences := pp.1
    let sentences_raw := pp.2
    if pp_sentences.length > 0 then
      let pairs := pp_sentences.zip sentences_raw
      let pairs :=
        if section_name = "body" then sampleBodySentences shuffleFn pairs else pairs
      processPairs embedding_model article_id section_name pairs
    else .ok []

/-- The per-article part of the worker loop: the three sections in order. -/
def processArticle (env : NormEnv)
    (shuffleFn : List (List String × String) → List (List String × String))
    (embedding_model : Option Vectorizer) (stem_words remove_num : Bool)
    (article : Article) : Except PyExc (List Row) := do
  let r1 ← processSection env shuffleFn embedding_model stem_words remove_num
    article.id ("title") article.title
  let r2 ← processSection env shuffleFn embedding_model stem_words remove_num
    article.id ("abstract") article.abstract
  let r3 ← processSection env shuffleFn embedding_model stem_words remove_num
    article.id ("body") article.body
  pure (r1 ++ r2 ++ r3)

/-- `pre_process_batch_of_articles(args)` (without its retry decorator,
modelled separately by `worker_retry_policy`): accumulate the rows of
every article of the chunk, in order; a raised exception aborts the
whole call and returns no rows. -/
def pre_process_batch_of_articles (env : NormEnv)
    (shuffleFn : List (List String × String) → List (List String × String))
    (batch : List Article) (embedding_model : Option Vectorizer)
    (stem_words remove_num : Bool) : Except PyExc (List Row) :=
  match batch with
  | [] => .ok []
  | article :: rest => do
    let rows ← processArticle env shuffleFn embedding_model stem_words remove_num article
    let restRows ← pre_process_batch_of_articles env shuffleFn rest embedding_model
      stem_words remove_num
    pure (rows ++ restRows)

/-- The exception class named by the worker's retry decorator:
`sqlite3.OperationalError`. -/
def isSqlite3OperationalError : PyExc → Bool
  | .sqlite3OperationalError => true
  | _ => false

/-- Modelled from the spec: the semantics of the external `retry`
decorator (`@retry(exception, tries, delay, backoff=1)`), which is a
third-party dependency, not code of this repository.  The wrapped action
`f` is indexed by the attempt number (the database state may change
between attempts).  Returns the final outcome together with the list of
sleep durations performed between attempts: the decorator calls `f`, and
on an exception of the retried class sleeps `delay` and retries with
`delay * backoff` while attempts remain; any other exception propagates
at once. -/
def retryCall (retryable : PyExc → Bool) (delay backoff : Nat) {α : Type}
    (f : Nat → Except PyExc α) (attempt : Nat) :
    Nat → Except PyExc α × List Nat
  | 0 => (f attempt, [])
  | 1 => (f attempt, [])
  | n + 2 =>
    match f attempt with
    | .ok a => (.ok a, [])
    | .error e =>
      if retryable e then
        let r := retryCall retryable (delay * backoff) backoff f (attempt + 1) (n + 1)
        (r.1, delay :: r.2)
      else (.error e, [])

/-- The decoration applied to the worker in the source:
`@retry(sqlite3.OperationalError, tries=5, delay=2)` (backoff defaults
to 1 in the retry package). -/
def worker_retry_policy {α : Type} (f : Nat → Except PyExc α) :
    Except PyExc α × List Nat :=
  retryCall isSqlite3OperationalError 2 1 f 0 5

/-- Python `range(start, stop, step)` for a positive step.  Python's
`range` raises `ValueError` for step 0; that case is outside the
modelled domain (the model returns `[]` there), so every theorem about
`split_into_chunks` or the driver carries a `1 ≤ chunk size`
hypothesis restricting it to the faithful domain. -/
def pyRange (start stop step : Nat) : List Nat :=
  if _h : start < stop ∧ 0 < step then
    start :: pyRange (start + step) stop step
  else []
termination_by stop - start
decreasing_by omega

/-- Python slice `l[a:b]` for in-range clamped bounds. -/
def pySlice {α : Type} (l : List α) (a b : Nat) : List α :=
  (l.drop a).take (b - a)

/-- `split_into_chunks(iterable, chunks_size)` from the source:
`for ndx in range(0, total_size, chunks_size): batches.append(iterable[ndx:min(ndx + chunks_size, total_size)])`. -/
def split_into_chunks {α : Type} (iterable : List α) (chunks_size : Nat) : List (List α) :=
  let total_size := iterable.length
  (pyRange 0 total_size chunks_size).map
    (fun ndx => pySlice iterable ndx (min (ndx + chunks_size) total_size))

/-- Observable interactions of the pipeline driver with the database
collaborator (`c19.database_utilities`, whose code is outside this
module).  Modelled from the spec: `get_all_articles_data` fetches all
records once, `insert_rows` appends one batch of rows to a named table. -/
inductive DBEffect
  | loadAllArticles
  | runWorkerBatch (articleCount : Nat)
  | insertRows (rowCount : Nat) (tableName : String)
deriving DecidableEq, Repr

/-- The worker-pool phase of the driver (`pool.imap_unordered` over the
argument tuples, each worker wrapped by the retry decorator).  Arrival
order of results is abstracted as submission order; the worker action is
deterministic here, so each attempt of the retry wrapper behaves alike. -/
def runPool (env : NormEnv)
    (shuffleFn : List (List String × String) → List (List String × String))
    (embedding_model : Option Vectorizer) (stem_words remove_num : Bool) :
    List (List Article) → Except PyExc (List (List Row))
  | [] => .ok []
  | batch :: rest => do
    let rows ← (worker_retry_policy (fun _ =>
      pre_process_batch_of_articles env shuffleFn batch embedding_model
        stem_words remove_num)).1
    let restRows ← runPool env shuffleFn embedding_model stem_words remove_num rest
    pure (rows :: restRows)

/-- `pre_process_and_vectorize_texts` from the source.  `dbExists` models
`os.path.isfile(db_path)` and `source` the records returned by
`get_all_articles_data` (both external collaborators).  Returns the list
of database effects performed together with the outcome:
  * `first_launch is False`: assert the file exists and reuse it,
    performing nothing else;
  * otherwise load all articles, chunk them, and — before any pool
    work — format the progress message, whose `len(batches[0])`
    raises `IndexError` when the chunk list is empty; then run the
    worker pool and insert each resulting batch into the `sentences`
    table. -/
def pre_process_and_vectorize_texts (env : NormEnv)
    (shuffleFn : List (List String × String) → List (List String × String))
    (embedding_model : Option Vectorizer) (dbExists : Bool)
    (source : List Article) (first_launch stem_words remove_num : Bool)
    (batch_size : Nat) : List DBEffect × Except PyExc Unit :=
  match first_launch with
  | false =>
    if dbExists then ([], .ok ()) else ([], .error .assertionError)
  | true =>
    let articles := source
    let batches := split_into_chunks articles batch_size
    match batches with
    | [] => ([DBEffect.loadAllArticles], .error .indexError)
    | _ :: _ =>
      match runPool env shuffleFn embedding_model stem_words remove_num batches with
      | .error e =>
        (DBEffect.loadAllArticles ::
          batches.map (fun b => DBEffect.runWorkerBatch b.length), .error e)
      | .ok batches_to_insert =>
        (DBEffect.loadAllArticles ::
          (batches.map (fun b => DBEffect.runWorkerBatch b.length) ++
            batches_to_insert.map
              (fun rows => DBEffect.insertRows rows.length ("sentences"))),
          .ok ())

/-- A fragment of nltk's English stop-word corpus (external data loaded
by the source via `stopwords.words("english")`); every word listed here
is in the real corpus, and the concrete inputs below only need these. -/
def stop_words_nltk_fragment : List String :=
  ["i", "me", "my", "we", "our", "you", "he", "him", "his", "she", "her",
   "it", "its", "they", "them", "the", "a", "an", "and", "or", "but",
   "if", "is", "are", "was", "were", "be", "been", "being", "to", "of",
   "in", "on", "for", "with", "at", "by", "from", "this", "that",
   "these", "those", "not", "no", "do", "does", "did", "have", "has",
   "had", "will", "can", "here", "there", "when",
   "where", "why", "how", "all", "any", "both", "each", "so", "than",
   "too", "very", "s", "t", "d"]

/-- Concrete instantiation of nltk's punkt sentence splitter on the one
input used below: punkt splits `"It was here. Covid spreads fast."` at
the period before the capitalised word into exactly these two
sentences. -/
def punktSplitTwo : String → List String := fun text =>
  if text = "It was here. Covid spreads fast."
  then [("It was here."), ("Covid spreads fast.")]
  else [text]

/-- Environment instantiating the external capabilities for the two-
sentence input: punkt behaviour as above, the nltk stop-word fragment,
and the identity in place of the (unused) stemmer. -/
def envTwoSentences : NormEnv :=
  { sent_tokenize := punktSplitTwo
    stop_words := stop_words_nltk_fragment
    stem := fun word => word }

/-- Environment whose sentence splitter returns the whole text as one
sentence (punkt's behaviour on period-free one-sentence inputs). -/
def envWholeText : NormEnv :=
  { sent_tokenize := fun text => [text]
    stop_words := stop_words_nltk_fragment
    stem := fun word => word }

/-- An embedding model whose `compute_sentence_vector` raises on every
sentence (e.g. every word out of vocabulary). -/
def failing_vectorizer : Vectorizer := fun _ => Except.error PyExc.typeError

/-! ## Theorems -/

/-- Every normalized sentence in the tuple returned by `preprocess_text`
is the image, under the length-`> 1` token filter, of a sentence that
was non-empty before that filter (helper). -/
theorem mem_final_stage {L : List (List String)} {s : List String}
    (hs : s ∈ (L.filter (fun t => t ≠ [])).map
      (fun t => t.filter (fun word => word.length > 1))) :
    ∃ t ∈ L, t ≠ [] ∧ s = t.filter (fun word => word.length > 1) := by
  rcases List.mem_map.mp hs with ⟨t, ht, rfl⟩
  rcases List.mem_filter.mp ht with ⟨htL, htne⟩
  exact ⟨t, htL, by simpa using htne, rfl⟩

/-- Every token surviving the final token-length filter has length at
least 2 (helper). -/
theorem final_stage_token_length {L : List (List String)} {s : List String}
    {word : String}
    (hs : s ∈ (L.filter (fun t => t ≠ [])).map
      (fun t => t.filter (fun word => word.length > 1)))
    (hw : word ∈ s) : 2 ≤ word.length := by
  rcases List.mem_map.mp hs with ⟨t, _, rfl⟩
  rcases List.mem_filter.mp hw with ⟨-, hlen⟩
  have : word.length > 1 := by simpa using hlen
  omega

/-- Tokens of a sentence that went through `remove_numeric_words` (and
then the final stage) start with a lower-case letter (helper). -/
theorem final_stage_after_numeric {M : List (List String)} {s : List String}
    {word : String}
    (hs : s ∈ ((M.map remove_numeric_words).filter (fun t => t ≠ [])).map
      (fun t => t.filter (fun word => word.length > 1)))
    (hw : word ∈ s) : startsWithLowerAlpha word = true := by
  rcases List.mem_map.mp hs with ⟨t, ht, rfl⟩
  rcases List.mem_filter.mp ht with ⟨htm, -⟩
  rcases List.mem_map.mp htm with ⟨u, -, rfl⟩
  rcases List.mem_filter.mp hw with ⟨hwt, -⟩
  exact (List.mem_filter.mp hwt).2

/-- C1: the claimed joint filtering does not exist in the code.  On the
two-sentence input `"It was here. Covid spreads fast."` (whose first
sentence consists only of stop words), `preprocess_text` drops the
emptied sentence from the normalized list only, returning a normalized
list of length 1 next to a raw list of length 2 — the two sequences are
not of equal length and not index-aligned. -/
theorem preprocess_text_misaligned_lengths :
    ((preprocess_text envTwoSentences ("It was here. Covid spreads fast.") false true).1.length = 1)
    ∧ ((preprocess_text envTwoSentences ("It was here. Covid spreads fast.") false true).2.length = 2) := by
  decide

/-- C2: a per-sentence vectorization failure is not skipped.  The call
`embedding_model.compute_sentence_vector` happens before the
`try/except TypeError` block, so with a vectorizer that raises for the
sentence of this one-article batch, `pre_process_batch_of_articles`
propagates the exception and the whole batch fails instead of silently
dropping the sentence. -/
theorem vectorizer_failure_aborts_batch :
    pre_process_batch_of_articles envWholeText (fun l => l)
      [{ id := "a1", title := some ("covid spreads"), abstract := none, body := none }]
      (some failing_vectorizer) false false
    = Except.error PyExc.typeError := rfl

/-- C3 (counterexample): for a body section with 2 ≤ 20 sentence pairs
the sampler does not return the pairs unchanged: reversal is a possible
outcome of the seedless `random.shuffle`, and then the output order
differs from the input order. -/
theorem sampler_changes_order_small_input :
    sampleBodySentences List.reverse [(["covid"], "s1"), (["mask"], "s2")]
      ≠ [(["covid"], "s1"), (["mask"], "s2")] := by
  decide

/-- C3 (amended): for any permutation `shuffleFn` (every possible
outcome of `random.shuffle`), if the input has more than 20 pairs the
sampler returns exactly 20 pairs forming a sub-permutation of the input
(each output pair occurs in the input, no input position used twice);
otherwise it returns a permutation of the input — all pairs, in shuffled
order. -/
theorem sampler_properties
    (shuffleFn : List (List String × String) → List (List String × String))
    (hs : ∀ l, (shuffleFn l).Perm l)
    (pairs : List (List String × String)) :
    (20 < pairs.length →
      (sampleBodySentences shuffleFn pairs).length = 20
      ∧ (sampleBodySentences shuffleFn pairs).Subperm pairs)
    ∧ (pairs.length ≤ 20 →
      (sampleBodySentences shuffleFn pairs).Perm pairs) := by
  constructor
  · intro hlen
    constructor
    · have hsl := (hs pairs).length_eq
      simp only [sampleBodySentences, List.length_take]
      omega
    · exact ((List.take_sublist _ _).subperm).trans (hs pairs).subperm
  · intro hlen
    have hlen2 : (shuffleFn pairs).length ≤ 20 := by
      rw [(hs pairs).length_eq]; exact hlen
    simpa [sampleBodySentences, List.take_of_length_le hlen2] using hs pairs

/-- C3 (witness): the amended sampler properties at concrete inputs — a
21-pair body yields 20 pairs from the input, and a 1-pair body yields a
permutation of itself. -/
theorem sampler_properties_witness :
    ((sampleBodySentences (fun l => l)
        ((List.range 21).map (fun i => ([toString i], toString i)))).length = 20
      ∧ (sampleBodySentences (fun l => l)
        ((List.range 21).map (fun i => ([toString i], toString i)))).Subperm
          ((List.range 21).map (fun i => ([toString i], toString i))))
    ∧ (sampleBodySentences (fun l => l) [(["covid"], "s1")]).Perm [(["covid"], "s1")] :=
  ⟨(sampler_properties (fun l => l) (fun l => List.Perm.refl l) _).1 (by decide),
   (sampler_properties (fun l => l) (fun l => List.Perm.refl l) _).2 (by decide)⟩

/-- C4 (counterexample): a normalized sentence in the output of
`preprocess_text` can have zero tokens.  On `"x q"` both tokens survive
stop-word and numeric filtering but are removed by the length-`≤ 1`
token filter, which runs after the empty-sentence filter, so the
returned normalized list is `[[]]`. -/
theorem preprocess_text_can_return_empty_sentence :
    (preprocess_text envWholeText ("x q") false true).1 = [[]] := by
  decide

/-- C4 (amended): the normalized output of `preprocess_text` is exactly
the length-`≤ 1` token filter applied to those sentences of the
pre-filter stage (`normalizedBeforeLengthFilter`) that are non-empty:
a sentence that is already empty before the length filter is discarded,
while a sentence emptied only by the length filter is retained as an
empty token sequence; in particular every returned normalized sentence
is the length-filtered image of a sentence of the pipeline's pre-filter
stage that was non-empty there. -/
theorem preprocess_text_empty_sentence_handling
    (env : NormEnv) (stem_words remove_num : Bool) (text : String) :
    (preprocess_text env text stem_words remove_num).1
      = ((normalizedBeforeLengthFilter env text stem_words remove_num).filter
          (fun s => s ≠ [])).map (fun s => s.filter (fun word => word.length > 1))
    ∧ ∀ s ∈ (preprocess_text env text stem_words remove_num).1,
        ∃ t ∈ normalizedBeforeLengthFilter env text stem_words remove_num,
          t ≠ [] ∧ s = t.filter (fun word => word.length > 1) := by
  refine ⟨rfl, ?_⟩
  intro s hs
  rcases mem_final_stage hs with ⟨t, htL, htne, rfl⟩
  exact ⟨t, htL, htne, rfl⟩

/-- C4 (witness): the amended property at a concrete input — the one
surviving normalized sentence of `"covid spreads"` is the length-filter
image of a non-empty sentence of the pre-filter stage. -/
theorem preprocess_text_empty_sentence_handling_witness :
    ∃ t ∈ normalizedBeforeLengthFilter envWholeText ("covid spreads") false true,
      t ≠ [] ∧ (["covid", "spreads"] : List String)
        = t.filter (fun word => word.length > 1) :=
  (preprocess_text_empty_sentence_handling envWholeText false true
    ("covid spreads")).2 (["covid", "spreads"]) (by decide)

/-- C5: every token of every normalized sentence returned by
`preprocess_text` has length at least 2, and when the numeric-removal
flag is set every returned token starts with a lower-case letter (so no
token starts with a non-alphabetic character). -/
theorem preprocess_text_token_guarantees
    (env : NormEnv) (stem_words remove_num : Bool) (text : String) :
    ∀ s ∈ (preprocess_text env text stem_words remove_num).1, ∀ word ∈ s,
      2 ≤ word.length
      ∧ (remove_num = true → startsWithLowerAlpha word = true) := by
  intro s hs word hw
  constructor
  · exact final_stage_token_length hs hw
  · intro hrn
    subst hrn
    exact final_stage_after_numeric hs hw

/-- C5 (witness): the token guarantees at a concrete input. -/
theorem preprocess_text_token_guarantees_witness :
    2 ≤ String.length ("covid")
    ∧ (true = true → startsWithLowerAlpha ("covid") = true) :=
  preprocess_text_token_guarantees envWholeText false true ("covid spreads")
    (["covid", "spreads"]) (by decide) ("covid") (by decide)

/-- One unfolding step of the decorated worker call: with five attempts
remaining, try the first attempt; an exception of the retried class
sleeps 2 and continues with four attempts remaining (helper, by
definitional unfolding). -/
theorem worker_retry_unfold {α : Type} (f : Nat → Except PyExc α) :
    worker_retry_policy f =
      (match f 0 with
       | .ok a => (.ok a, [])
       | .error e =>
         if isSqlite3OperationalError e then
           ((retryCall isSqlite3OperationalError 2 1 f 1 4).1,
            2 :: (retryCall isSqlite3OperationalError 2 1 f 1 4).2)
         else (.error e, [])) := rfl

/-- Unfolding with four attempts remaining (helper). -/
theorem retryCall_unfold_four {α : Type} (f : Nat → Except PyExc α) :
    retryCall isSqlite3OperationalError 2 1 f 1 4 =
      (match f 1 with
       | .ok a => (.ok a, [])
       | .error e =>
         if isSqlite3OperationalError e then
           ((retryCall isSqlite3OperationalError 2 1 f 2 3).1,
            2 :: (retryCall isSqlite3OperationalError 2 1 f 2 3).2)
         else (.error e, [])) := rfl

/-- Unfolding with three attempts remaining (helper). -/
theorem retryCall_unfold_three {α : Type} (f : Nat → Except PyExc α) :
    retryCall isSqlite3OperationalError 2 1 f 2 3 =
      (match f 2 with
       | .ok a => (.ok a, [])
       | .error e =>
         if isSqlite3OperationalError e then
           ((retryCall isSqlite3OperationalError 2 1 f 3 2).1,
            2 :: (retryCall isSqlite3OperationalError 2 1 f 3 2).2)
         else (.error e, [])) := rfl

/-- Unfolding with two attempts remaining (helper). -/
theorem retryCall_unfold_two {α : Type} (f : Nat → Except PyExc α) :
    retryCall isSqlite3OperationalError 2 1 f 3 2 =
      (match f 3 with
       | .ok a => (.ok a, [])
       | .error e =>
         if isSqlite3OperationalError e then
           ((retryCall isSqlite3OperationalError 2 1 f 4 1).1,
            2 :: (retryCall isSqlite3OperationalError 2 1 f 4 1).2)
         else (.error e, [])) := rfl

/-- The last attempt runs unguarded: its exception propagates (helper). -/
theorem retryCall_unfold_last {α : Type} (f : Nat → Except PyExc α) :
    retryCall isSqlite3OperationalError 2 1 f 4 1 = (f 4, []) := rfl

/-- C6: the retry decoration of the batch worker
(`@retry(sqlite3.OperationalError, tries=5, delay=2)`) retries only on
`sqlite3.OperationalError`: any other exception propagates at once with
no sleep; an operational error that persists is re-raised after exactly
5 attempts with the fixed inter-attempt delays `[2, 2, 2, 2]` (no
exponential backoff); and an operational error that clears is retried
to success with the same fixed delay. -/
theorem worker_retry_policy_semantics {α : Type} (f : Nat → Except PyExc α) :
    (∀ e, isSqlite3OperationalError e = false → f 0 = Except.error e →
      worker_retry_policy f = (Except.error e, []))
    ∧ ((∀ k, f k = Except.error PyExc.sqlite3OperationalError) →
      worker_retry_policy f = (Except.error PyExc.sqlite3OperationalError, [2, 2, 2, 2]))
    ∧ (∀ a, f 0 = Except.error PyExc.sqlite3OperationalError →
      f 1 = Except.error PyExc.sqlite3OperationalError → f 2 = Except.ok a →
      worker_retry_policy f = (Except.ok a, [2, 2])) := by
  refine ⟨?_, ?_, ?_⟩
  · intro e he hf0
    rw [worker_retry_unfold, hf0]
    simp [he]
  · intro hf
    simp [worker_retry_unfold, retryCall_unfold_four, retryCall_unfold_three,
      retryCall_unfold_two, retryCall_unfold_last, hf 0, hf 1, hf 2, hf 3, hf 4,
      isSqlite3OperationalError]
  · intro a h0 h1 h2
    simp [worker_retry_unfold, retryCall_unfold_four, retryCall_unfold_three,
      h0, h1, h2, isSqlite3OperationalError]

/-- C6 (witness): the retry policy at two concrete actions — a
`TypeError` propagates at once, a persistent operational error is
re-raised after 5 attempts with four fixed delays. -/
theorem worker_retry_policy_semantics_witness :
    worker_retry_policy (fun _ => (Except.error PyExc.typeError : Except PyExc (List Row)))
      = (Except.error PyExc.typeError, [])
    ∧ worker_retry_policy
        (fun _ => (Except.error PyExc.sqlite3OperationalError : Except PyExc (List Row)))
      = (Except.error PyExc.sqlite3OperationalError, [2, 2, 2, 2]) :=
  ⟨(worker_retry_policy_semantics _).1 PyExc.typeError (by decide) rfl,
   (worker_retry_policy_semantics _).2.1 (fun _ => rfl)⟩

/-- An empty or zero-step Python range is empty (helper). -/
theorem pyRange_nil (start stop step : Nat) (h : ¬(start < stop ∧ 0 < step)) :
    pyRange start stop step = [] := by
  rw [pyRange]
  simp [h]

/-- A non-empty Python range starts at `start` (helper). -/
theorem pyRange_cons (start stop step : Nat) (h1 : start < stop) (h2 : 0 < step) :
    pyRange start stop step = start :: pyRange (start + step) stop step := by
  rw [pyRange]
  simp [h1, h2]

/-- Shifting both bounds of a range shifts its elements (helper). -/
theorem pyRange_shift (k : Nat) : ∀ (a b s : Nat),
    pyRange (a + k) (b + k) s = (pyRange a b s).map (fun x => x + k) := by
  intro a b s
  rcases Nat.eq_zero_or_pos s with hs | hs
  · subst hs
    rw [pyRange_nil _ _ _ (by omega), pyRange_nil _ _ _ (by omega)]
    simp
  · suffices H : ∀ n a, b - a ≤ n →
        pyRange (a + k) (b + k) s = (pyRange a b s).map (fun x => x + k) by
      exact H (b - a) a le_rfl
    intro n
    induction n with
    | zero =>
      intro a ha
      rw [pyRange_nil _ _ _ (by omega), pyRange_nil _ _ _ (by omega)]
      simp
    | succ m ih =>
      intro a ha
      by_cases hab : a < b
      · rw [pyRange_cons _ _ _ (by omega) hs, pyRange_cons _ _ _ hab hs]
        simp only [List.map_cons]
        rw [show a + k + s = (a + s) + k by omega]
        exact congrArg _ (ih (a + s) (by omega))
      · rw [pyRange_nil _ _ _ (by omega), pyRange_nil _ _ _ (by omega)]
        simp

/-- Variant of the shift lemma with the upper bound given directly
(helper). -/
theorem pyRange_shift_sub (a b k s : Nat) (hk : k ≤ b) :
    pyRange (a + k) b s = (pyRange a (b - k) s).map (fun x => x + k) := by
  have h : b = (b - k) + k := by omega
  conv_lhs => rw [h]
  exact pyRange_shift k a (b - k) s

/-- Chunking the empty list gives no chunks (helper). -/
theorem split_into_chunks_nil {α : Type} (c : Nat) :
    split_into_chunks ([] : List α) c = [] := by
  simp [split_into_chunks, pyRange_nil 0 0 c (by omega)]

/-- Recursive characterisation of `split_into_chunks`: the first chunk
is the first `c` elements, the rest chunks the remainder (helper). -/
theorem split_into_chunks_cons {α : Type} (l : List α) (c : Nat)
    (hc : 0 < c) (hl : l ≠ []) :
    split_into_chunks l c = l.take c :: split_into_chunks (l.drop c) c := by
  have hlen : 0 < l.length := List.length_pos.mpr hl
  simp only [split_into_chunks]
  rw [pyRange_cons 0 l.length c hlen hc, List.map_cons]
  have hhead : pySlice l 0 (min (0 + c) l.length) = l.take c := by
    simp only [pySlice, List.drop_zero, Nat.sub_zero]
    rcases Nat.le_total c l.length with hcl | hcl
    · rw [show min (0 + c) l.length = c from by omega]
    · rw [show min (0 + c) l.length = l.length from by omega, List.take_length,
        List.take_of_length_le (by omega)]
  rw [hhead, List.length_drop]
  rcases Nat.lt_or_ge c l.length with hcl | hcl
  · rw [pyRange_shift_sub 0 l.length c c (by omega), List.map_map]
    have hfun : ((fun ndx => pySlice l ndx (min (ndx + c) l.length)) ∘ (fun x => x + c))
        = (fun ndx => pySlice (l.drop c) ndx (min (ndx + c) (l.length - c))) := by
      funext ndx
      simp only [Function.comp_apply, pySlice, List.drop_drop]
      rw [show c + ndx = ndx + c from by omega,
        show min (ndx + c + c) l.length - (ndx + c)
          = min (ndx + c) (l.length - c) - ndx from by omega]
    rw [hfun]
  · rw [pyRange_nil (0 + c) l.length c (by omega),
      show l.length - c = 0 from by omega, pyRange_nil 0 0 c (by omega)]
    simp

/-- C7: for every article sequence and chunk size `c ≥ 1`,
`split_into_chunks` partitions the sequence: the concatenation of the
chunks in order reconstructs the input exactly, the number of chunks is
`⌈length / c⌉` (written `(length + c - 1) / c` in natural division),
every chunk but the last has size exactly `c`, and the last chunk has
size at most `c`. -/
theorem split_into_chunks_correct {α : Type} (l : List α) (c : Nat) (hc : 1 ≤ c) :
    (split_into_chunks l c).flatten = l
    ∧ (split_into_chunks l c).length = (l.length + c - 1) / c
    ∧ (∀ chunk ∈ (split_into_chunks l c).dropLast, chunk.length = c)
    ∧ ∀ chunk, (split_into_chunks l c).getLast? = some chunk → chunk.length ≤ c := by
  suffices H : ∀ (n : Nat) (l : List α), l.length ≤ n →
      (split_into_chunks l c).flatten = l
      ∧ (split_into_chunks l c).length = (l.length + c - 1) / c
      ∧ (∀ chunk ∈ (split_into_chunks l c).dropLast, chunk.length = c)
      ∧ ∀ chunk, (split_into_chunks l c).getLast? = some chunk → chunk.length ≤ c by
    exact H l.length l le_rfl
  intro n
  induction n with
  | zero =>
    intro l hl
    have hnil : l = [] := List.eq_nil_of_length_eq_zero (by omega)
    subst hnil
    rw [split_into_chunks_nil]
    refine ⟨rfl, ?_, by simp, by simp⟩
    simp [Nat.div_eq_of_lt (show c - 1 < c from by omega)]
  | succ m ih =>
    intro l hl
    by_cases hnil : l = []
    · subst hnil
      rw [split_into_chunks_nil]
      refine ⟨rfl, ?_, by simp, by simp⟩
      simp [Nat.div_eq_of_lt (show c - 1 < c from by omega)]
    · have hlen : 0 < l.length := List.length_pos.mpr hnil
      have hdroplen : (l.drop c).length ≤ m := by
        rw [List.length_drop]; omega
      obtain ⟨ihj, ihl, ihd, ihlast⟩ := ih (l.drop c) hdroplen
      rw [split_into_chunks_cons l c (by omega) hnil]
      refine ⟨?_, ?_, ?_, ?_⟩
      · rw [List.flatten_cons, ihj, List.take_append_drop]
      · simp only [List.length_cons, ihl, List.length_drop]
        rcases Nat.le_total c l.length with hcl | hcl
        · rw [show l.length - c + c - 1 = l.length - 1 from by omega,
            show l.length + c - 1 = (l.length - 1) + c from by omega,
            Nat.add_div_right _ (show 0 < c from by omega)]
        · rw [show l.length - c = 0 from by omega,
            Nat.div_eq_of_lt (show 0 + c - 1 < c from by omega),
            (Nat.div_eq_of_lt_le (by omega) (by omega) : (l.length + c - 1) / c = 1)]
      · cases hrest : split_into_chunks (l.drop c) c with
        | nil => simp
        | cons r rs =>
          have hdropne : l.drop c ≠ [] := by
            intro hd
            rw [hd, split_into_chunks_nil] at hrest
            exact List.noConfusion hrest
          have hclen : c < l.length := by
            rcases Nat.lt_or_ge c l.length with h2 | h2
            · exact h2
            · exact absurd (List.drop_eq_nil_of_le h2) hdropne
          intro chunk hchunk
          rw [show (l.take c :: r :: rs).dropLast = l.take c :: (r :: rs).dropLast
            from rfl] at hchunk
          rcases List.mem_cons.mp hchunk with hfirst | htail
          · subst hfirst
            rw [List.length_take]
            omega
          · rw [← hrest] at htail
            exact ihd chunk htail
      · intro chunk hchunk
        cases hrest : split_into_chunks (l.drop c) c with
        | nil =>
          rw [hrest] at hchunk
          simp only [List.getLast?_singleton, Option.some.injEq] at hchunk
          subst hchunk
          rw [List.length_take]
          omega
        | cons r rs =>
          rw [hrest, List.getLast?_cons_cons, ← hrest] at hchunk
          exact ihlast chunk hchunk

/-- C7 (witness): the chunking properties at a concrete input: five
elements in chunks of two. -/
theorem split_into_chunks_correct_witness :
    (split_into_chunks [1, 2, 3, 4, 5] 2).flatten = [1, 2, 3, 4, 5]
    ∧ (split_into_chunks [1, 2, 3, 4, 5] 2).length
        = (List.length [1, 2, 3, 4, 5] + 2 - 1) / 2
    ∧ (∀ chunk ∈ (split_into_chunks [1, 2, 3, 4, 5] 2).dropLast, chunk.length = 2)
    ∧ ∀ chunk, (split_into_chunks [1, 2, 3, 4, 5] 2).getLast? = some chunk →
        chunk.length ≤ 2 :=
  split_into_chunks_correct [1, 2, 3, 4, 5] 2 (by omega)

/-- Shape of the rows produced by the per-sentence loop (helper): every
row comes from a non-empty normalized sentence, carries the given
article id and section name, and its vector field is `None` exactly when
no embedding model was supplied. -/
theorem processPairs_ok_shape {embedding_model : Option Vectorizer}
    {aid secName : String} :
    ∀ {pairs : List (List String × String)} {rows : List Row},
      processPairs embedding_model aid secName pairs = Except.ok rows →
      ∀ r ∈ rows, ∃ raw pp vec, r = mkRow aid secName raw pp vec ∧ pp ≠ []
        ∧ (vec = PyVal.null ↔ embedding_model = none) := by
  intro pairs
  induction pairs with
  | nil =>
    intro rows h r hr
    simp only [processPairs, Except.ok.injEq] at h
    subst h
    simp at hr
  | cons p rest ih =>
    intro rows h r hr
    obtain ⟨pp, raw⟩ := p
    by_cases hpp : pp = []
    · simp only [processPairs, hpp, ne_eq, not_true_eq_false, if_false] at h
      exact ih h r hr
    · cases hm : embedding_model with
      | none =>
        subst hm
        simp only [processPairs, hpp, ne_eq, not_false_eq_true, if_true] at h
        cases hrest : processPairs none aid secName rest with
        | error e => rw [hrest] at h; simp [Except.map] at h
        | ok rows2 =>
          rw [hrest] at h
          simp only [Except.map, Except.ok.injEq] at h
          subst h
          rcases List.mem_cons.mp hr with hfirst | htail
          · exact ⟨raw, pp, PyVal.null, hfirst, hpp, by simp⟩
          · exact ih hrest r htail
      | some f =>
        subst hm
        simp only [processPairs, hpp, ne_eq, not_false_eq_true, if_true] at h
        cases hv : f pp with
        | error e => rw [hv] at h; simp at h
        | ok comps =>
          rw [hv] at h
          cases hrest : processPairs (some f) aid secName rest with
          | error e => rw [hrest] at h; simp [Except.map] at h
          | ok rows2 =>
            rw [hrest] at h
            simp only [Except.map, Except.ok.injEq] at h
            subst h
            rcases List.mem_cons.mp hr with hfirst | htail
            · exact ⟨raw, pp, PyVal.str (pyJsonDumps comps), hfirst, hpp, by simp⟩
            · exact ih hrest r htail

/-- Shape of the rows produced for one section (helper). -/
theorem processSection_ok_shape {env : NormEnv}
    {shuffleFn : List (List String × String) → List (List String × String)}
    {embedding_model : Option Vectorizer} {stem_words remove_num : Bool}
    {aid secName : String} {data : Option String} {rows : List Row}
    (h : processSection env shuffleFn embedding_model stem_words remove_num
      aid secName data = Except.ok rows) :
    ∀ r ∈ rows, ∃ raw pp vec, r = mkRow aid secName raw pp vec ∧ pp ≠ []
      ∧ (vec = PyVal.null ↔ embedding_model = none) := by
  intro r hr
  cases data with
  | none =>
    simp only [processSection, Except.ok.injEq] at h
    subst h
    simp at hr
  | some text =>
    simp only [processSection] at h
    split at h
    · exact processPairs_ok_shape h r hr
    · simp only [Except.ok.injEq] at h
      subst h
      simp at hr

/-- Shape of the rows produced for one article (helper): the section
name is one of the three literals of the section loop. -/
theorem processArticle_ok_shape {env : NormEnv}
    {shuffleFn : List (List String × String) → List (List String × String)}
    {embedding_model : Option Vectorizer} {stem_words remove_num : Bool}
    {article : Article} {rows : List Row}
    (h : processArticle env shuffleFn embedding_model stem_words remove_num
      article = Except.ok rows) :
    ∀ r ∈ rows, ∃ aid secName raw pp vec, r = mkRow aid secName raw pp vec
      ∧ (secName = "title" ∨ secName = "abstract" ∨ secName = "body")
      ∧ pp ≠ [] ∧ (vec = PyVal.null ↔ embedding_model = none) := by
  intro r hr
  simp only [processArticle, bind, Except.bind] at h
  cases h1 : processSection env shuffleFn embedding_model stem_words remove_num
      article.id ("title") article.title with
  | error e => rw [h1] at h; simp at h
  | ok r1 =>
    rw [h1] at h
    cases h2 : processSection env shuffleFn embedding_model stem_words remove_num
        article.id ("abstract") article.abstract with
    | error e => rw [h2] at h; simp at h
    | ok r2 =>
      rw [h2] at h
      cases h3 : processSection env shuffleFn embedding_model stem_words remove_num
          article.id ("body") article.body with
      | error e => rw [h3] at h; simp at h
      | ok r3 =>
        rw [h3] at h
        simp only [pure, Except.pure, Except.ok.injEq] at h
        subst h
        rcases List.mem_append.mp hr with hr12 | hr3
        · rcases List.mem_append.mp hr12 with hr1 | hr2
          · obtain ⟨raw, pp, vec, hrow, hpp, hvec⟩ := processSection_ok_shape h1 r hr1
            exact ⟨article.id, "title", raw, pp, vec, hrow, Or.inl rfl, hpp, hvec⟩
          · obtain ⟨raw, pp, vec, hrow, hpp, hvec⟩ := processSection_ok_shape h2 r hr2
            exact ⟨article.id, "abstract", raw, pp, vec, hrow, Or.inr (Or.inl rfl), hpp, hvec⟩
        · obtain ⟨raw, pp, vec, hrow, hpp, hvec⟩ := processSection_ok_shape h3 r hr3
          exact ⟨article.id, "body", raw, pp, vec, hrow, Or.inr (Or.inr rfl), hpp, hvec⟩

/-- C9: every row returned by a successful run of the batch worker is a
5-element row `[article_id, section, raw_sentence, json(normalized), vector]`
whose section name is `"title"`, `"abstract"` or `"body"`, whose
normalized token list is non-empty, and whose vector field is `None`
exactly when no embedding model was supplied. -/
theorem worker_rows_invariant (env : NormEnv)
    (shuffleFn : List (List String × String) → List (List String × String))
    (batch : List Article) (embedding_model : Option Vectorizer)
    (stem_words remove_num : Bool) (rows : List Row)
    (h : pre_process_batch_of_articles env shuffleFn batch embedding_model
      stem_words remove_num = Except.ok rows) :
    ∀ r ∈ rows, r.length = 5
      ∧ ∃ aid secName raw pp vec, r = mkRow aid secName raw pp vec
        ∧ (secName = "title" ∨ secName = "abstract" ∨ secName = "body")
        ∧ pp ≠ [] ∧ (vec = PyVal.null ↔ embedding_model = none) := by
  induction batch generalizing rows with
  | nil =>
    intro r hr
    simp only [pre_process_batch_of_articles, Except.ok.injEq] at h
    subst h
    simp at hr
  | cons article rest ih =>
    intro r hr
    simp only [pre_process_batch_of_articles, bind, Except.bind] at h
    cases h1 : processArticle env shuffleFn embedding_model stem_words remove_num
        article with
    | error e => rw [h1] at h; simp at h
    | ok rows1 =>
      rw [h1] at h
      cases h2 : pre_process_batch_of_articles env shuffleFn rest embedding_model
          stem_words remove_num with
      | error e => rw [h2] at h; simp at h
      | ok rows2 =>
        rw [h2] at h
        simp only [pure, Except.pure, Except.ok.injEq] at h
        subst h
        rcases List.mem_append.mp hr with hr1 | hr2
        · obtain ⟨aid, secName, raw, pp, vec, hrow, hsec, hpp, hvec⟩ :=
            processArticle_ok_shape h1 r hr1
          refine ⟨by rw [hrow]; rfl, aid, secName, raw, pp, vec, hrow, hsec, hpp, hvec⟩
        · exact ih rows2 h2 r hr2

/-- C9 (witness): the row invariant on a concrete successful batch run
with no embedding model. -/
theorem worker_rows_invariant_witness :
    (mkRow ("a1") ("title") ("covid spreads") ["covid", "spreads"] PyVal.null).length = 5
    ∧ ∃ aid secName raw pp vec,
        mkRow ("a1") ("title") ("covid spreads") ["covid", "spreads"] PyVal.null
          = mkRow aid secName raw pp vec
        ∧ (secName = "title" ∨ secName = "abstract" ∨ secName = "body")
        ∧ pp ≠ [] ∧ (vec = PyVal.null ↔ (none : Option Vectorizer) = none) :=
  worker_rows_invariant envWholeText (fun l => l)
    [{ id := "a1", title := some ("covid spreads"), abstract := none, body := none }]
    none false false
    [mkRow ("a1") ("title") ("covid spreads") ["covid", "spreads"] PyVal.null]
    rfl
    (mkRow ("a1") ("title") ("covid spreads") ["covid", "spreads"] PyVal.null)
    (by simp)

/-- C8: when the storage target already exists (`os.path.isfile` true)
and `first_launch` is `False`, the pipeline driver is a no-op apart from
reusing the store: it performs no database effect at all — no record
load, no worker run, no insert — and returns normally, so a second run
against the same existing store writes nothing additional. -/
theorem driver_noop_when_store_exists (env : NormEnv)
    (shuffleFn : List (List String × String) → List (List String × String))
    (embedding_model : Option Vectorizer) (source : List Article)
    (stem_words remove_num : Bool) (batch_size : Nat) :
    pre_process_and_vectorize_texts env shuffleFn embedding_model true source
      false stem_words remove_num batch_size = ([], Except.ok ()) := rfl

/-- C10: with `first_launch` `True`, an empty article source and a
positive chunk size (Python's `range` raises `ValueError` for a zero
step, so chunk size 0 is outside the modelled domain), the driver loads
the records, produces an empty chunk list, and raises `IndexError` at
`len(batches[0])` while formatting the progress message — before any
worker runs and before any insert into storage (the only effect
performed is the initial load). -/
theorem driver_empty_source_index_error (env : NormEnv)
    (shuffleFn : List (List String × String) → List (List String × String))
    (embedding_model : Option Vectorizer) (dbExists : Bool)
    (stem_words remove_num : Bool) (batch_size : Nat) (_hbs : 1 ≤ batch_size) :
    pre_process_and_vectorize_texts env shuffleFn embedding_model dbExists []
      true stem_words remove_num batch_size
    = ([DBEffect.loadAllArticles], Except.error PyExc.indexError) := by
  have hb : split_into_chunks ([] : List Article) batch_size = [] :=
    split_into_chunks_nil batch_size
  simp [pre_process_and_vectorize_texts, hb]

/-- C10 (witness): the empty-source `IndexError` at the source's default
chunk size of 1000. -/
theorem driver_empty_source_index_error_witness :
    pre_process_and_vectorize_texts envWholeText (fun l => l) none true []
      true false false 1000
    = ([DBEffect.loadAllArticles], Except.error PyExc.indexError) :=
  driver_empty_source_index_error envWholeText (fun l => l) none true
    false false 1000 (by decide)
